import Mathlib

/-!
Verification of the `ion-select` component
(`src/core/src/components/select/select.tsx`).

The component is embedded shallowly: the handlers become pure functions on an
explicit `SelectState`, emitted DOM events become values of `Emitted` collected
in a returned list, and JavaScript values become `JSVal`.

Modelling notes on JavaScript semantics:
* Select values in this component are either primitives or arrays of
  primitives (the multi-select value is built by `map(o => o.value)` over the
  option elements).  `JSPrim` models the primitive values, `JSVal` adds arrays.
* `Array.prototype.includes` (SameValueZero) and `===` agree with structural
  equality on primitives; two distinct array objects are never `===`, and
  aliasing of the same array object between an option's `value` and the
  select's `value` is not modelled.
* The loose comparison `x != null` is false exactly for `null` and `undefined`.
-/

namespace IonSelect

/-- JavaScript primitive values as used for option/select values. -/
inductive JSPrim where
  | undef : JSPrim
  | null : JSPrim
  | bool (b : Bool) : JSPrim
  | num (n : Int) : JSPrim
  | str (s : String) : JSPrim
deriving DecidableEq, Repr

/-- A JavaScript value held in the select's `value` property: a primitive or an
array of primitives. -/
inductive JSVal where
  | prim (p : JSPrim) : JSVal
  | arr (xs : List JSPrim) : JSVal
deriving DecidableEq, Repr

/-- JS loose comparison `v != null`: false exactly for `null` and `undefined`. -/
def jsLooseNeqNull : JSVal → Bool
  | .prim .null => false
  | .prim .undef => false
  | _ => true

/-- JS `Array.isArray(v)`. -/
def jsIsArray : JSVal → Bool
  | .arr _ => true
  | .prim _ => false

/-- JS truthiness of a value: `undefined`, `null`, `false`, `0` and `''` are
falsy; every array (even empty) is truthy. -/
def jsTruthy : JSVal → Bool
  | .prim .undef => false
  | .prim .null => false
  | .prim (.bool b) => b
  | .prim (.num n) => decide (n ≠ 0)
  | .prim (.str s) => decide (s ≠ "")
  | .arr _ => true

/-- Strict equality `v === p` between a value and a primitive; an array object
is never strictly equal to a primitive. -/
def jsStrictEqPrim (v : JSVal) (p : JSPrim) : Bool :=
  match v with
  | .prim q => decide (q = p)
  | .arr _ => false

/-- Source expression `Array.isArray(value) ? value : [value]` (line 129). -/
def valuesOf : JSVal → List JSPrim
  | .arr xs => xs
  | .prim p => [p]

/-- JS `value.push(p)` on an array value; identity on a primitive (the source only
calls `push` under an `Array.isArray` guard). -/
def jsPush (v : JSVal) (p : JSPrim) : JSVal :=
  match v with
  | .arr xs => .arr (xs ++ [p])
  | .prim q => .prim q

/-- A projected `ion-select-option` child element: its `value`, `textContent`
(`null` modelled as `none`), `selected` and `disabled` flags. -/
structure SelectOption where
  value : JSPrim
  textContent : Option String
  selected : Bool
  disabled : Bool
deriving DecidableEq, Repr

instance : Inhabited SelectOption := ⟨⟨JSPrim.undef, none, false, false⟩⟩

/-- The select's presentation interface (`SelectInterface` in the source):
`'action-sheet' | 'popover' | 'alert'`. -/
inductive SelectInterface where
  | actionSheet : SelectInterface
  | popover : SelectInterface
  | alert : SelectInterface
deriving DecidableEq, Repr

/-- One entry of the popover's `componentProps.options` (text, value, checked,
disabled); the `handler` closure is framework plumbing and is not modelled. -/
structure PopoverOptionData where
  text : Option String
  checked : Bool
  disabled : Bool
  value : JSPrim
deriving DecidableEq, Repr

/-- One `ActionSheetButton` built by `openActionSheet` (role and text; the
`handler` closure is not modelled). -/
structure ActionSheetButtonData where
  role : String
  text : Option String
deriving DecidableEq, Repr

/-- One alert input built by `openAlert` (`type`, `label`, `value`, `checked`,
`disabled`). -/
structure AlertInputData where
  inputType : String
  label : Option String
  checked : Bool
  disabled : Bool
  value : JSPrim
deriving DecidableEq, Repr

/-- The data handed to the overlay controller's `create` call; the spread of
`interfaceOptions` and the button/option handlers are pass-through framework
configuration and are not modelled. -/
inductive OverlayConfig where
  | popover (value : JSVal) (options : List PopoverOptionData) : OverlayConfig
  | actionSheet (buttons : List ActionSheetButtonData) : OverlayConfig
  | alert (inputs : List AlertInputData) : OverlayConfig
deriving DecidableEq, Repr

/-- Which of the three platform-native choice interfaces an overlay is. -/
inductive OverlayKind where
  | popover : OverlayKind
  | actionSheet : OverlayKind
  | alert : OverlayKind
deriving DecidableEq, Repr

/-- Modelled from the spec: the overlay controllers (`ion-popover-controller`,
`ion-action-sheet-controller`, `ion-alert-controller`) live outside this file;
per the spec an overlay is "a transient presentation surface (dialog, sheet,
popover) opened on demand and dismissed after a choice is made or cancelled",
and `create`/`present`/`dismiss` are "framework-provided" promise-returning
lifecycle calls.  `presented` records that `present()` was awaited. -/
structure Overlay where
  config : OverlayConfig
  presented : Bool
deriving DecidableEq, Repr

/-- The kind of interface an overlay presents. -/
def Overlay.kind (ov : Overlay) : OverlayKind :=
  match ov.config with
  | .popover _ _ => .popover
  | .actionSheet _ => .actionSheet
  | .alert _ => .alert

/-- Modelled from the spec: `overlay.dismiss()` is a framework-provided
lifecycle call; dismissing the overlay (after a choice is made or cancelled)
resolves to `true`. -/
def Overlay.dismiss (_ : Overlay) : Bool := true

/-- The component state of `Select`: the projected child options, the `value`
property, the rendered `text`, the `multiple`/`disabled` props, the configured
interface, the button texts, the expansion flag and the stored overlay. -/
structure SelectState where
  childOpts : List SelectOption
  value : JSVal
  text : String
  multiple : Bool
  disabled : Bool
  interface : SelectInterface
  cancelText : String
  okText : String
  isExpanded : Bool
  overlay : Option Overlay
deriving DecidableEq, Repr

/-- Events emitted by the component that the claims are about. -/
inductive Emitted where
  | change (text : String) (value : JSVal) : Emitted
  | style (interactive select hasVal interactiveDisabled selectDisabled : Bool) : Emitted
  | cancel : Emitted
deriving DecidableEq, Repr

/-- Whether an emitted event is an `ionChange`. -/
def Emitted.isChange : Emitted → Bool
  | .change _ _ => true
  | _ => false

/-- Whether an emitted event is an `ionStyle`. -/
def Emitted.isStyle : Emitted → Bool
  | .style _ _ _ _ _ => true
  | _ => false

/-- Source `hasValue()` (lines 408-413): an array value is present when non-empty; a
primitive is present when it is not `null`, not `undefined` and not `''`. -/
def hasValue (v : JSVal) : Bool :=
  match v with
  | .arr xs => decide (0 < xs.length)
  | .prim p => jsLooseNeqNull (.prim p) && decide (p ≠ .undef) && decide (p ≠ .str "")

/-- The payload of `emitStyle()` (lines 415-423). -/
def emitStyleEvent (st : SelectState) : Emitted :=
  .style true true (hasValue st.value) st.disabled st.disabled

/-- Source `disabledChanged()` (lines 117-120): emits the style event. -/
def disabledChanged (st : SelectState) : SelectState × List Emitted :=
  (st, [emitStyleEvent st])

/-- The `forEach` scan of `valueChanged` (lines 128-141), written as structural
recursion with the `hasChecked` flag threaded through: returns the updated
option list, the pushed `texts`, and the final `hasChecked`. -/
def scanOpts (multiple : Bool) (values : List JSPrim) :
    Bool → List SelectOption → List SelectOption × List String × Bool
  | hasChecked, [] => ([], [], hasChecked)
  | hasChecked, o :: rest =>
    if values.contains o.value && (multiple || !hasChecked) then
      let r := scanOpts multiple values true rest
      ({ o with selected := true } :: r.1, (o.textContent.getD "") :: r.2.1, r.2.2)
    else
      let r := scanOpts multiple values hasChecked rest
      ({ o with selected := false } :: r.1, r.2.1, r.2.2)

/-- Source `valueChanged()` (lines 122-149): reconciles the child options against the
new value, sets `text` to the joined texts, emits `ionChange` and the style
event. -/
def valueChanged (st : SelectState) : SelectState × List Emitted :=
  let values := valuesOf st.value
  let r := scanOpts st.multiple values false st.childOpts
  let text := String.intercalate ", " r.2.1
  let st1 : SelectState := { st with childOpts := r.1, text := text }
  (st1, [.change text st.value, emitStyleEvent st1])

/-- Source `onSelect(ev)` (lines 184-194): the event target identified by its index in
`childOpts`; a `forEach` sets `value` from the target and deselects every other
option. -/
def onSelect (st : SelectState) (tgtIdx : Nat) : SelectState :=
  let childOpts := st.childOpts.mapIdx fun i o =>
    if i = tgtIdx then o else { o with selected := false }
  let value := match st.childOpts.get? tgtIdx with
    | some o => JSVal.prim o.value
    | none => st.value
  { st with childOpts := childOpts, value := value }

/-- Source `componentWillLoad()` (lines 196-200): a falsy initial value is replaced by
`[]` when `multiple` and by `undefined` otherwise. -/
def componentWillLoad (st : SelectState) : SelectState :=
  if jsTruthy st.value then st
  else { st with value := if st.multiple then JSVal.arr [] else JSVal.prim .undef }

/-- The `ev.target` of an `ionSelectOptionDidLoad`/`DidUnload` event: either
the element at index `i` of the freshly queried descendant list (a load), or a
detached element no longer among the descendants (an unload). -/
inductive OptTarget where
  | inList (i : Nat) : OptTarget
  | detached (o : SelectOption) : OptTarget
deriving Repr

/-- Resolve the target element of `optLoad`. -/
def optTargetOpt (domOpts : List SelectOption) : OptTarget → SelectOption
  | .inList i => domOpts.getD i default
  | .detached o => o

/-- Write the (possibly mutated) target element back: in-list targets are
updated in place, a detached target leaves `childOpts` unchanged. -/
def writeTarget (st : SelectState) (tgt : OptTarget) (o : SelectOption) : SelectState :=
  match tgt with
  | .inList i => { st with childOpts := st.childOpts.set i o }
  | .detached _ => st

/-- The four-way branch of `optLoad` (lines 161-181), run on the component
state after `childOpts` and `value` were updated to `domOpts` and `value0`;
JS operator precedence on line 161 gives
`(value != null && isArray && includes) || (target.value === value)`. -/
def optLoadBranch (st0 : SelectState) (tgt : OptTarget) (o : SelectOption)
    (value0 : JSVal) : SelectState :=
  if (jsLooseNeqNull value0 && jsIsArray value0 && (valuesOf value0).contains o.value)
      || jsStrictEqPrim value0 o.value then
    writeTarget st0 tgt { o with selected := true }
  else if jsIsArray value0 && st0.multiple && o.selected then
    { st0 with value := jsPush value0 o.value }
  else if decide (value0 = JSVal.prim .undef) && o.selected then
    { st0 with value := JSVal.prim o.value }
  else if o.selected then
    writeTarget st0 tgt { o with selected := false }
  else
    st0

/-- Source `optLoad(ev)` (lines 151-182): rebuilds `childOpts` from the queried
descendants `domOpts`; when `multiple`, recomputes `value` from the selected
options; then runs the four-way branch on the event target. -/
def optLoad (st : SelectState) (domOpts : List SelectOption) (tgt : OptTarget) : SelectState :=
  let value0 :=
    if st.multiple then JSVal.arr ((domOpts.filter (·.selected)).map (·.value))
    else st.value
  optLoadBranch { st with childOpts := domOpts, value := value0 } tgt
    (optTargetOpt domOpts tgt) value0

/-- Source `openPopover(ev)` (lines 265-296): builds the popover options from the
child options, stores the presented overlay and expands. -/
def openPopover (st : SelectState) : SelectState × Overlay :=
  let ov : Overlay :=
    { config := .popover st.value (st.childOpts.map fun o =>
        { text := o.textContent, checked := o.selected
          disabled := o.disabled, value := o.value }),
      presented := true }
  ({ st with overlay := some ov, isExpanded := true }, ov)

/-- Source `openActionSheet()` (lines 298-330): one button per child option plus a
cancel button, stores the presented overlay and expands. -/
def openActionSheet (st : SelectState) : SelectState × Overlay :=
  let buttons :=
    (st.childOpts.map fun o =>
      ({ role := if o.selected then "selected" else "", text := o.textContent }
        : ActionSheetButtonData))
    ++ [{ role := "cancel", text := some st.cancelText }]
  let ov : Overlay := { config := .actionSheet buttons, presented := true }
  ({ st with overlay := some ov, isExpanded := true }, ov)

/-- Source `openAlert()` (lines 332-377): checkbox inputs when `multiple`, radio
inputs otherwise, stores the presented overlay and expands. -/
def openAlert (st : SelectState) : SelectState × Overlay :=
  let inputType := if st.multiple then "checkbox" else "radio"
  let inputs := st.childOpts.map fun o =>
    ({ inputType := inputType, label := o.textContent, checked := o.selected
       disabled := o.disabled, value := o.value } : AlertInputData)
  let ov : Overlay := { config := .alert inputs, presented := true }
  ({ st with overlay := some ov, isExpanded := true }, ov)

/-- Source `open(ev?)` (lines 232-255): picks the presentation strategy, falling back
to the alert with a console warning when the configured interface cannot be
used; returns the new state, the opened overlay, and the number of warnings
logged. -/
def «open» (st : SelectState) (hasEvent : Bool) : SelectState × Overlay × Nat :=
  let si := st.interface
  let siW1 :=
    if (si = SelectInterface.actionSheet ∨ si = SelectInterface.popover) ∧ st.multiple = true
    then (SelectInterface.alert, 1) else (si, 0)
  let siW2 :=
    if siW1.1 = SelectInterface.popover ∧ hasEvent = false
    then (SelectInterface.alert, 1) else (siW1.1, 0)
  let warns := siW1.2 + siW2.2
  if siW2.1 = SelectInterface.popover then
    let r := openPopover st
    (r.1, r.2, warns)
  else if siW2.1 = SelectInterface.actionSheet then
    let r := openActionSheet st
    (r.1, r.2, warns)
  else
    let r := openAlert st
    (r.1, r.2, warns)

/-- Source `close()` (lines 382-393): with no stored overlay, resolves `false` and
changes nothing; otherwise clears the overlay, collapses, and resolves the
overlay's dismissal. -/
def close (st : SelectState) : SelectState × Bool :=
  match st.overlay with
  | none => (st, false)
  | some ov => ({ st with overlay := none, isExpanded := false }, ov.dismiss)

/-! ### Lemmas about the `valueChanged` scan -/

lemma scanOpts_length (m : Bool) (vs : List JSPrim) :
    ∀ (hc : Bool) (opts : List SelectOption),
      (scanOpts m vs hc opts).1.length = opts.length := by
  intro hc opts
  induction opts generalizing hc with
  | nil => simp [scanOpts]
  | cons o rest ih =>
    simp only [scanOpts]
    split
    · simpa using ih true
    · simpa using ih hc

lemma hasChecked_step (c m hc x : Bool) :
    ((if c && (m || !hc) then true else hc) || x) = (hc || (c || x)) := by
  cases c <;> cases m <;> cases hc <;> simp

lemma scanOpts_get (m : Bool) (vs : List JSPrim) :
    ∀ (hc : Bool) (opts : List SelectOption) (i : Nat),
      (scanOpts m vs hc opts).1.get? i = (opts.get? i).map fun o =>
        { o with selected := vs.contains o.value &&
            (m || !(hc || ((opts.take i).any fun p => vs.contains p.value))) } := by
  intro hc opts
  induction opts generalizing hc with
  | nil => intro i; simp [scanOpts]
  | cons o rest ih =>
    intro i
    match i with
    | 0 =>
      simp only [scanOpts, List.take_zero, List.any_nil, Bool.or_false]
      split
      · rename_i hcond
        simp at hcond
        simpa using hcond
      · rename_i hcond
        simp at hcond
        simpa using hcond
    | j + 1 =>
      simp only [scanOpts]
      split
      · rename_i hcond
        simp only [List.get?_cons_succ, ih true j, List.take_succ_cons,
          List.any_cons]
        have : (true || ((rest.take j).any fun p => vs.contains p.value))
            = (hc || (vs.contains o.value ||
                ((rest.take j).any fun p => vs.contains p.value))) := by
          have h := hasChecked_step (vs.contains o.value) m hc
            ((rest.take j).any fun p => vs.contains p.value)
          rwa [if_pos hcond] at h
        rw [this]
      · rename_i hcond
        simp only [List.get?_cons_succ, ih hc j, List.take_succ_cons,
          List.any_cons]
        have : (hc || ((rest.take j).any fun p => vs.contains p.value))
            = (hc || (vs.contains o.value ||
                ((rest.take j).any fun p => vs.contains p.value))) := by
          have h := hasChecked_step (vs.contains o.value) m hc
            ((rest.take j).any fun p => vs.contains p.value)
          rwa [if_neg hcond] at h
        rw [this]

lemma scanOpts_texts (m : Bool) (vs : List JSPrim) :
    ∀ (hc : Bool) (opts : List SelectOption),
      (scanOpts m vs hc opts).2.1 =
        ((scanOpts m vs hc opts).1.filter fun o => o.selected).map
          fun o => o.textContent.getD "" := by
  intro hc opts
  induction opts generalizing hc with
  | nil => simp [scanOpts]
  | cons o rest ih =>
    simp only [scanOpts]
    split
    · simpa using ih true
    · simpa using ih hc

lemma scanOpts_single_count (vs : List JSPrim) :
    ∀ (hc : Bool) (opts : List SelectOption),
      ((scanOpts false vs hc opts).1.countP fun o => o.selected) ≤
        (if hc then 0 else 1) := by
  intro hc opts
  induction opts generalizing hc with
  | nil => simp [scanOpts]
  | cons o rest ih =>
    simp only [scanOpts]
    split
    · rename_i hcond
      have hhc : hc = false := by
        cases hc <;> simp_all
      subst hhc
      simpa [List.countP_cons] using ih true
    · simpa [List.countP_cons] using ih hc

lemma get?_mapIdx {α β : Type} (f : Nat → α → β) (l : List α) (i : Nat) :
    (l.mapIdx f).get? i = (l.get? i).map (f i) := by
  by_cases h : i < l.length
  · have h1 : i < (l.mapIdx f).length := by
      simpa [List.length_mapIdx] using h
    rw [List.get?_eq_get h, List.get?_eq_get h1]
    simp [List.get_mapIdx]
  · have h1 : l.length ≤ i := Nat.le_of_not_lt h
    rw [List.get?_eq_none.mpr h1,
      List.get?_eq_none.mpr (by simpa [List.length_mapIdx] using h1)]
    rfl

/-- A concrete component state used to instantiate the theorems below. -/
def demoState : SelectState :=
  { childOpts :=
      [⟨JSPrim.str "a", some "Apple", false, false⟩,
       ⟨JSPrim.str "a", some "Apricot", false, false⟩,
       ⟨JSPrim.str "b", some "Banana", true, false⟩],
    value := JSVal.prim (JSPrim.str "a"), text := "", multiple := false,
    disabled := false, interface := SelectInterface.alert,
    cancelText := "Cancel", okText := "OK", isExpanded := false, overlay := none }

/-! ### Claim theorems -/

/-- C1: on every value change, `valueChanged` scans the child options once,
setting each option's `selected` flag exactly when its value occurs in the new
value (a non-array value treated as a one-element list) — and, when `multiple`
is false, only for the first matching option in document order — clearing it
for every other option, and setting the component's `text` to the
`textContent` of the selected options joined by `', '`. -/
theorem valueChanged_reconciliation (st : SelectState) :
    ((valueChanged st).1.childOpts.length = st.childOpts.length) ∧
    (∀ i, (valueChanged st).1.childOpts.get? i = (st.childOpts.get? i).map fun o =>
      { o with selected := (valuesOf st.value).contains o.value &&
          (st.multiple ||
            !((st.childOpts.take i).any fun p => (valuesOf st.value).contains p.value)) }) ∧
    (valueChanged st).1.text = String.intercalate ", "
      (((valueChanged st).1.childOpts.filter fun o => o.selected).map
        fun o => o.textContent.getD "") := by
  refine ⟨?_, ?_, ?_⟩
  · simpa [valueChanged] using
      scanOpts_length st.multiple (valuesOf st.value) false st.childOpts
  · intro i
    simpa [valueChanged] using
      scanOpts_get st.multiple (valuesOf st.value) false st.childOpts i
  · have h := scanOpts_texts st.multiple (valuesOf st.value) false st.childOpts
    simp [valueChanged, h]

/-- C3: each run of `valueChanged` emits exactly one `ionChange`, whose
payload carries the new value together with the `', '`-joined `textContent` of
the selected options. -/
theorem valueChanged_change_event (st : SelectState) :
    ((valueChanged st).2.filter Emitted.isChange) =
      [Emitted.change (String.intercalate ", "
        (((valueChanged st).1.childOpts.filter fun o => o.selected).map
          fun o => o.textContent.getD "")) st.value] := by
  have h := scanOpts_texts st.multiple (valuesOf st.value) false st.childOpts
  simp [valueChanged, Emitted.isChange, Emitted.isStyle, emitStyleEvent, h]

/-- C7: both `disabledChanged` and `valueChanged` emit an `ionStyle` event
whose payload has `interactive` and `select` true, `has-value` equal to
`hasValue()`, and both `interactive-disabled` and `select-disabled` equal to
the `disabled` flag. -/
theorem style_event_payload (st : SelectState) :
    (disabledChanged st).2 =
      [Emitted.style true true (hasValue st.value) st.disabled st.disabled] ∧
    ((valueChanged st).2.filter Emitted.isStyle) =
      [Emitted.style true true (hasValue st.value) st.disabled st.disabled] := by
  constructor
  · rfl
  · simp [valueChanged, emitStyleEvent, Emitted.isStyle, Emitted.isChange]

/-- C8: when `multiple` is false, after `valueChanged` at most one child
option is selected — even when several options share the matching value — and
an option is selected exactly when it is the first match in scan order. -/
theorem single_selection_invariant (st : SelectState) (h : st.multiple = false) :
    (((valueChanged st).1.childOpts.countP fun o => o.selected) ≤ 1) ∧
    (∀ i, (valueChanged st).1.childOpts.get? i = (st.childOpts.get? i).map fun o =>
      { o with selected := (valuesOf st.value).contains o.value &&
          !((st.childOpts.take i).any fun p => (valuesOf st.value).contains p.value) }) := by
  constructor
  · have hc := scanOpts_single_count (valuesOf st.value) false st.childOpts
    simpa [valueChanged, h] using hc
  · intro i
    have hg := scanOpts_get st.multiple (valuesOf st.value) false st.childOpts i
    simpa [valueChanged, h] using hg

/-- Witness for C8 at a concrete state: two options share the value `"a"` and
only one ends up selected. -/
theorem single_selection_invariant_witness :
    ((valueChanged demoState).1.childOpts.countP fun o => o.selected) ≤ 1 :=
  (single_selection_invariant demoState rfl).1

/-- C9: `hasValue()` is true exactly for a non-empty array value or a
primitive value other than `null`, `undefined` and `''`; in particular `0` and
`false` count as present values. -/
theorem hasValue_semantics (v : JSVal) :
    (hasValue v = true ↔
      ((∃ xs, v = JSVal.arr xs ∧ 0 < xs.length) ∨
       (∃ p, v = JSVal.prim p ∧ p ≠ JSPrim.null ∧ p ≠ JSPrim.undef ∧
         p ≠ JSPrim.str ""))) ∧
    hasValue (JSVal.prim (JSPrim.num 0)) = true ∧
    hasValue (JSVal.prim (JSPrim.bool false)) = true := by
  refine ⟨?_, by decide, by decide⟩
  cases v with
  | arr xs => simp [hasValue]
  | prim p => cases p <;> simp [hasValue, jsLooseNeqNull]

/-- C10: during `componentWillLoad` any falsy initial value — including `0`,
`false` and `''`, not only `null`/`undefined` — is replaced by `[]` when
`multiple` is true and by `undefined` otherwise; a truthy initial value is
kept. -/
theorem initial_value_normalization (st : SelectState) :
    (jsTruthy st.value = false →
      componentWillLoad st =
        { st with value := if st.multiple then JSVal.arr [] else JSVal.prim .undef }) ∧
    (jsTruthy st.value = true → componentWillLoad st = st) ∧
    jsTruthy (JSVal.prim (JSPrim.num 0)) = false ∧
    jsTruthy (JSVal.prim (JSPrim.bool false)) = false ∧
    jsTruthy (JSVal.prim (JSPrim.str "")) = false := by
  refine ⟨?_, ?_, by decide, by decide, by decide⟩
  · intro h; simp [componentWillLoad, h]
  · intro h; simp [componentWillLoad, h]

/-- A concrete state with the falsy initial value `0`. -/
def zeroValueState : SelectState := { demoState with value := JSVal.prim (JSPrim.num 0) }

/-- Witness for C10: the falsy initial value `0` is replaced by `undefined`. -/
theorem initial_value_normalization_witness :
    componentWillLoad zeroValueState =
      { zeroValueState with value := JSVal.prim .undef } := by
  have h := (initial_value_normalization zeroValueState).1 (by decide)
  simpa using h

/-- C5: when an `ionSelect` event arrives from the child option at index `i`,
`onSelect` sets the component's value to that option's value, leaves that
option untouched, and clears `selected` on every other child option. -/
theorem onSelect_reconciliation (st : SelectState) (i : Nat) (o : SelectOption)
    (h : st.childOpts.get? i = some o) :
    (onSelect st i).value = JSVal.prim o.value ∧
    (onSelect st i).childOpts.get? i = some o ∧
    (∀ j, j ≠ i → (onSelect st i).childOpts.get? j =
      (st.childOpts.get? j).map fun p => { p with selected := false }) := by
  have h' : st.childOpts[i]? = some o := by
    simpa [List.get?_eq_getElem?] using h
  refine ⟨?_, ?_, ?_⟩
  · simp [onSelect, h']
  · simp [onSelect, get?_mapIdx, h']
  · intro j hj
    simp only [onSelect, get?_mapIdx]
    cases st.childOpts.get? j <;> simp [hj]

/-- Witness for C5: selecting the first option of the demo state. -/
theorem onSelect_reconciliation_witness :
    (onSelect demoState 0).value = JSVal.prim (JSPrim.str "a") :=
  (onSelect_reconciliation demoState 0
    ⟨JSPrim.str "a", some "Apple", false, false⟩ rfl).1

/-- C2: `open` opens and returns exactly one of the three interfaces: a
popover when the configured interface is `'popover'`, an event was passed and
`multiple` is false; an action sheet when the configured interface is
`'action-sheet'` and `multiple` is false; and an alert in every other case —
in the fallback cases (`'action-sheet'`/`'popover'` with a multi-value select,
or `'popover'` without an event) at least one warning is logged. -/
theorem open_strategy (st : SelectState) (hasEvent : Bool) :
    ((«open» st hasEvent).1.overlay = some («open» st hasEvent).2.1) ∧
    ((«open» st hasEvent).1.isExpanded = true) ∧
    ((«open» st hasEvent).2.1.kind = OverlayKind.popover ↔
      (st.interface = SelectInterface.popover ∧ hasEvent = true ∧ st.multiple = false)) ∧
    ((«open» st hasEvent).2.1.kind = OverlayKind.actionSheet ↔
      (st.interface = SelectInterface.actionSheet ∧ st.multiple = false)) ∧
    ((¬(st.interface = SelectInterface.popover ∧ hasEvent = true ∧ st.multiple = false) ∧
      ¬(st.interface = SelectInterface.actionSheet ∧ st.multiple = false)) →
      («open» st hasEvent).2.1.kind = OverlayKind.alert) ∧
    ((((st.interface = SelectInterface.actionSheet ∨
        st.interface = SelectInterface.popover) ∧ st.multiple = true) ∨
      (st.interface = SelectInterface.popover ∧ st.multiple = false ∧ hasEvent = false)) →
      1 ≤ («open» st hasEvent).2.2) := by
  obtain ⟨co, v, t, m, d, si, ct, ot, ie, ov⟩ := st
  cases si <;> cases m <;> cases hasEvent <;>
    simp [«open», openPopover, openActionSheet, openAlert, Overlay.kind]

/-- A multi-value select configured with the `'popover'` interface. -/
def popoverMultiState : SelectState :=
  { demoState with interface := SelectInterface.popover, multiple := true }

/-- Witness for C2: a multi-value select configured with the `'popover'`
interface falls back to the alert and logs a warning. -/
theorem open_strategy_witness :
    («open» popoverMultiState true).2.1.kind = OverlayKind.alert ∧
    1 ≤ («open» popoverMultiState true).2.2 := by
  have h := open_strategy popoverMultiState true
  exact ⟨h.2.2.2.2.1 (by simp [popoverMultiState, demoState]),
    h.2.2.2.2.2 (Or.inl ⟨Or.inr rfl, rfl⟩)⟩

/-- C4: each of `openPopover`, `openActionSheet` and `openAlert` stores the
created, presented overlay as the component's current overlay and sets
`isExpanded`; `close` with a stored overlay clears it, resets `isExpanded`,
and resolves `true`, while `close` with no overlay changes nothing and
resolves `false`. -/
theorem overlay_lifecycle (st : SelectState) (ov : Overlay) :
    ((openPopover st).1.overlay = some (openPopover st).2 ∧
      (openPopover st).1.isExpanded = true ∧ (openPopover st).2.presented = true) ∧
    ((openActionSheet st).1.overlay = some (openActionSheet st).2 ∧
      (openActionSheet st).1.isExpanded = true ∧
      (openActionSheet st).2.presented = true) ∧
    ((openAlert st).1.overlay = some (openAlert st).2 ∧
      (openAlert st).1.isExpanded = true ∧ (openAlert st).2.presented = true) ∧
    (st.overlay = some ov →
      close st = ({ st with overlay := none, isExpanded := false }, true)) ∧
    (st.overlay = none → close st = (st, false)) := by
  refine ⟨⟨rfl, rfl, rfl⟩, ⟨rfl, rfl, rfl⟩, ⟨rfl, rfl, rfl⟩, ?_, ?_⟩
  · intro h
    simp [close, h, Overlay.dismiss]
  · intro h
    simp [close, h]

/-- Witness for C4: closing the demo state after opening an alert resolves
`true`, and closing with no overlay resolves `false`. -/
theorem overlay_lifecycle_witness :
    close (openAlert demoState).1 =
      ({ (openAlert demoState).1 with overlay := none, isExpanded := false }, true) ∧
    close demoState = (demoState, false) :=
  ⟨(overlay_lifecycle (openAlert demoState).1 (openAlert demoState).2).2.2.2.1 rfl,
   (overlay_lifecycle demoState (openAlert demoState).2).2.2.2.2 rfl⟩

/-! ### Lemmas about `optLoad` -/

lemma selected_value_contained (domOpts : List SelectOption) (i : Nat)
    (o : SelectOption) (h : domOpts.get? i = some o) (hsel : o.selected = true) :
    (((domOpts.filter fun p => p.selected).map fun p => p.value).contains o.value)
      = true := by
  have hmem : o ∈ domOpts := List.get?_mem h
  have hf : o ∈ domOpts.filter fun p => p.selected :=
    List.mem_filter.mpr ⟨hmem, by simp [hsel]⟩
  have hv : o.value ∈ (domOpts.filter fun p => p.selected).map fun p => p.value :=
    List.mem_map_of_mem _ hf
  simpa using hv

lemma get?_lt_length {α : Type} {l : List α} {i : Nat} {a : α}
    (h : l.get? i = some a) : i < l.length := by
  by_contra hlt
  rw [List.get?_eq_none.mpr (Nat.le_of_not_lt hlt)] at h
  exact Option.noConfusion h

lemma getD_of_get? {α : Type} [Inhabited α] {l : List α} {i : Nat} {a : α}
    (h : l.get? i = some a) : l[i]?.getD default = a := by
  have h1 : l[i]? = some a := by simpa [List.get?_eq_getElem?] using h
  rw [h1]
  rfl

lemma selected_update_eta (o : SelectOption) :
    { o with selected := o.selected } = o := rfl

/-- The `childOpts` produced by the `optLoad` branch for an in-list target:
the incoming list, or the incoming list with the target's flag overwritten. -/
lemma optLoadBranch_childOpts_cases (st0 : SelectState) (i : Nat)
    (o : SelectOption) (value0 : JSVal) :
    (optLoadBranch st0 (OptTarget.inList i) o value0).childOpts = st0.childOpts ∨
    (optLoadBranch st0 (OptTarget.inList i) o value0).childOpts =
      st0.childOpts.set i { o with selected := true } ∨
    (optLoadBranch st0 (OptTarget.inList i) o value0).childOpts =
      st0.childOpts.set i { o with selected := false } := by
  simp only [optLoadBranch, writeTarget]
  split
  · exact Or.inr (Or.inl rfl)
  · split
    · exact Or.inl rfl
    · split
      · exact Or.inl rfl
      · split
        · exact Or.inr (Or.inr rfl)
        · exact Or.inl rfl

/-- On an array value, the `optLoad` branch leaves `value` unchanged provided
a selected target's value occurs in the array. -/
lemma optLoadBranch_value_arr (st0 : SelectState) (i : Nat) (o : SelectOption)
    (vs : List JSPrim)
    (hsafe : o.selected = true → vs.contains o.value = true) :
    (optLoadBranch st0 (OptTarget.inList i) o (JSVal.arr vs)).value = st0.value := by
  by_cases hcont : vs.contains o.value = true
  · have hmem : o.value ∈ vs := by simpa using hcont
    simp [optLoadBranch, writeTarget, jsLooseNeqNull, jsIsArray, valuesOf,
      jsStrictEqPrim, hmem]
  · have hsel : o.selected = false := by
      cases hselc : o.selected
      · rfl
      · exact absurd (hsafe hselc) hcont
    have hmem : ¬ o.value ∈ vs := by simpa using hcont
    simp [optLoadBranch, writeTarget, jsLooseNeqNull, jsIsArray, valuesOf,
      jsStrictEqPrim, hmem, hsel]

/-- The `childOpts` produced by `optLoad` for an in-list target. -/
lemma optLoad_childOpts_cases (st : SelectState) (domOpts : List SelectOption)
    (i : Nat) (o : SelectOption) (h : domOpts.get? i = some o) :
    (optLoad st domOpts (OptTarget.inList i)).childOpts = domOpts ∨
    (optLoad st domOpts (OptTarget.inList i)).childOpts =
      domOpts.set i { o with selected := true } ∨
    (optLoad st domOpts (OptTarget.inList i)).childOpts =
      domOpts.set i { o with selected := false } := by
  have hgetD : domOpts[i]?.getD default = o := getD_of_get? h
  cases hm : st.multiple
  · have heq : optLoad st domOpts (OptTarget.inList i) =
        optLoadBranch { st with childOpts := domOpts, value := st.value }
          (OptTarget.inList i) o st.value := by
      simp [optLoad, optTargetOpt, hgetD, hm]
    rw [heq]
    simpa using optLoadBranch_childOpts_cases
      { st with childOpts := domOpts, value := st.value } i o st.value
  · have heq : optLoad st domOpts (OptTarget.inList i) =
        optLoadBranch
          { st with
            childOpts := domOpts
            value := JSVal.arr ((domOpts.filter fun p => p.selected).map
              fun p => p.value) }
          (OptTarget.inList i) o
          (JSVal.arr ((domOpts.filter fun p => p.selected).map fun p => p.value)) := by
      simp [optLoad, optTargetOpt, hgetD, hm]
    rw [heq]
    simpa using optLoadBranch_childOpts_cases
      { st with
        childOpts := domOpts
        value := JSVal.arr ((domOpts.filter fun p => p.selected).map
          fun p => p.value) }
      i o (JSVal.arr ((domOpts.filter fun p => p.selected).map fun p => p.value))

/-- With a multi-value select and an in-list target (a load event), the
branches after the recompute never modify `value` again. -/
lemma optLoad_value_multiple (st : SelectState) (domOpts : List SelectOption)
    (i : Nat) (o : SelectOption) (h : domOpts.get? i = some o)
    (hm : st.multiple = true) :
    (optLoad st domOpts (OptTarget.inList i)).value =
      JSVal.arr ((domOpts.filter fun p => p.selected).map fun p => p.value) := by
  have hgetD : domOpts[i]?.getD default = o := getD_of_get? h
  have heq : optLoad st domOpts (OptTarget.inList i) =
      optLoadBranch
        { st with
          childOpts := domOpts
          value := JSVal.arr ((domOpts.filter fun p => p.selected).map
            fun p => p.value) }
        (OptTarget.inList i) o
        (JSVal.arr ((domOpts.filter fun p => p.selected).map fun p => p.value)) := by
    simp [optLoad, optTargetOpt, hgetD, hm]
  rw [heq]
  exact optLoadBranch_value_arr _ i o _
    (fun hsel => selected_value_contained domOpts i o h hsel)

/-- A multi-value state holding the single selected value `"a"`. -/
def multiDemoState : SelectState :=
  { demoState with multiple := true, value := JSVal.arr [JSPrim.str "a"] }

/-- The detached (unloaded) selected option with value `"a"`. -/
def unloadedOption : SelectOption := ⟨JSPrim.str "a", some "Apple", true, false⟩

/-- Counterexample to C6 as stated: on an `ionSelectOptionDidUnload` event for
the selected option `"a"` — the only option, so the rebuilt descendant list is
empty — a multi-value select does not end up with the recomputed value `[]`
(the list of values of the selected rebuilt options): the unload branch pushes
the unloaded option's value back, leaving `value = ["a"]`. -/
theorem optLoad_unload_counterexample :
    multiDemoState.multiple = true ∧
    (optLoad multiDemoState [] (OptTarget.detached unloadedOption)).childOpts = [] ∧
    (optLoad multiDemoState [] (OptTarget.detached unloadedOption)).value =
      JSVal.arr [JSPrim.str "a"] ∧
    (optLoad multiDemoState [] (OptTarget.detached unloadedOption)).value ≠
      JSVal.arr ((([] : List SelectOption).filter fun p => p.selected).map
        fun p => p.value) := by
  refine ⟨rfl, rfl, rfl, ?_⟩
  decide

/-- C6 (amended): on every option load/unload event the component rebuilds
`childOpts` from the `ion-select-option` descendants (adjusting at most the
triggering option's `selected` flag), and when `multiple` is true and the
triggering option is among the rebuilt descendants (a load event), `value` is
recomputed as the list of values of the selected options. -/
theorem optLoad_projection (st : SelectState) (domOpts : List SelectOption)
    (i : Nat) (o : SelectOption) (h : domOpts.get? i = some o) :
    ((optLoad st domOpts (OptTarget.inList i)).childOpts.length = domOpts.length) ∧
    (∀ j, j ≠ i →
      (optLoad st domOpts (OptTarget.inList i)).childOpts.get? j = domOpts.get? j) ∧
    (∃ b, (optLoad st domOpts (OptTarget.inList i)).childOpts.get? i =
      some { o with selected := b }) ∧
    (st.multiple = true →
      (optLoad st domOpts (OptTarget.inList i)).value =
        JSVal.arr ((domOpts.filter fun p => p.selected).map fun p => p.value)) := by
  have hlen : i < domOpts.length := get?_lt_length h
  refine ⟨?_, ?_, ?_, fun hm => optLoad_value_multiple st domOpts i o h hm⟩
  · rcases optLoad_childOpts_cases st domOpts i o h with hc | hc | hc <;>
      simp [hc]
  · intro j hj
    rcases optLoad_childOpts_cases st domOpts i o h with hc | hc | hc
    · rw [hc]
    · rw [hc, List.get?_set_ne _ _ (Ne.symm hj)]
    · rw [hc, List.get?_set_ne _ _ (Ne.symm hj)]
  · rcases optLoad_childOpts_cases st domOpts i o h with hc | hc | hc
    · exact ⟨o.selected, by rw [hc, h, selected_update_eta]⟩
    · exact ⟨true, by rw [hc, List.get?_set_eq_of_lt _ hlen]⟩
    · exact ⟨false, by rw [hc, List.get?_set_eq_of_lt _ hlen]⟩

/-- A load-event state: the three demo options as rebuilt descendants. -/
def loadDemoOpts : List SelectOption := demoState.childOpts

/-- Witness for the amended C6: a load event for the selected option at index
2 of a multi-value select recomputes `value` to `["b"]`. -/
theorem optLoad_projection_witness :
    (optLoad multiDemoState loadDemoOpts (OptTarget.inList 2)).value =
      JSVal.arr [JSPrim.str "b"] := by
  have h := (optLoad_projection multiDemoState loadDemoOpts 2
    ⟨JSPrim.str "b", some "Banana", true, false⟩ rfl).2.2.2 rfl
  simpa [loadDemoOpts, demoState] using h

end IonSelect
